import Mathlib

/-!
# s3_misc.go: put, list, head, copy and delete against S3

A shallow embedding of `src/s3_misc.go`.  The program is a straight-line
sequence of five SDK calls; everything outside the file (the file system, the
S3 client, the SDK's error values) is an input of the model:

* `Flags` holds the three command-line flags after `flag.Parse()`;
* `Env` holds what `os.Open` and `s3.New` give back;
* an `error` value is `Option GoError` (`none` is Go's `nil`), where `GoError`
  records which of the SDK's interfaces the dynamic type implements;
* a run is a `Prog`: it extends a trace of observable events and ends by
  returning, by panicking, or by `os.Exit`.

The text a logger puts in front of a message (date and time) is not modelled:
a `log` event carries the message handed to the logger.
-/

namespace S3Misc

/-! ## Errors -/

/-- The methods of the SDK interface `awserr.Error`, as the values they return.
`origErr` is the result of `OrigErr()`: `none` for `nil`, otherwise the
text of the underlying error. -/
structure AwsError where
  code : String
  message : String
  error : String
  origErr : Option String
  deriving DecidableEq, Repr

/-- A non-nil Go `error`, by the interfaces its dynamic type implements.
`awserr.RequestFailure` embeds `awserr.Error`, so a request failure carries
the methods of both. -/
inductive GoError where
  | awsError (a : AwsError)
  | requestFailure (a : AwsError) (statusCode : Int) (requestID : String)
  | other (text : String)
  deriving DecidableEq, Repr

/-- The type assertion `err.(awserr.Error)`; it fails on a nil interface. -/
def asAwsError : Option GoError → Option AwsError
  | some (.awsError a) => some a
  | some (.requestFailure a _ _) => some a
  | _ => none

/-- The type assertion `err.(awserr.RequestFailure)`: the status code and the
request identifier of a request failure. -/
def asRequestFailure : Option GoError → Option (Int × String)
  | some (.requestFailure _ statusCode requestID) => some (statusCode, requestID)
  | _ => none

/-! ## Requests and events -/

/-- The handle returned by `os.Open`. -/
structure File where
  name : String
  fd : Nat
  deriving DecidableEq, Repr

structure PutObjectInput where
  Body : File
  Key : String
  Bucket : String
  deriving DecidableEq, Repr

structure ListObjectsInput where
  Bucket : String
  Prefix : String
  deriving DecidableEq, Repr

structure HeadObjectInput where
  Bucket : String
  Key : String
  deriving DecidableEq, Repr

structure CopyObjectInput where
  Bucket : String
  CopySource : String
  Key : String
  deriving DecidableEq, Repr

structure DeleteObjectInput where
  Bucket : String
  Key : String
  deriving DecidableEq, Repr

/-- A request sent to the service. -/
inductive Request where
  | put (p : PutObjectInput)
  | list (p : ListObjectsInput)
  | head (p : HeadObjectInput)
  | copy (p : CopyObjectInput)
  | delete (p : DeleteObjectInput)
  deriving DecidableEq, Repr

/-- What a run does that can be seen from outside. -/
inductive Event where
  | osOpen (name : String)
  | close (f : File)
  | request (r : Request)
  | stdout (text : String)
  | log (text : String)
  deriving DecidableEq, Repr

/-! ## Control -/

/-- How a piece of Go code ends: it returns, it panics with an error value, or
it calls `os.Exit`. -/
inductive Ctl (α : Type) where
  | ret (a : α)
  | panic (e : GoError)
  | exit (status : Nat)
  deriving Repr

/-- A program: from the trace so far to the way it ends and the trace then. -/
def Prog (α : Type) : Type := List Event → Ctl α × List Event

def Prog.pure {α : Type} (a : α) : Prog α := fun tr => (.ret a, tr)

def Prog.bind {α β : Type} (m : Prog α) (k : α → Prog β) : Prog β := fun tr =>
  match m tr with
  | (.ret a, tr1) => k a tr1
  | (.panic e, tr1) => (.panic e, tr1)
  | (.exit n, tr1) => (.exit n, tr1)

instance : Monad Prog where
  pure := Prog.pure
  bind := Prog.bind

def emit (e : Event) : Prog Unit := fun tr => (.ret (), tr ++ [e])

/-- Go's `panic(err)`. -/
def goPanic {α : Type} (e : GoError) : Prog α := fun tr => (.panic e, tr)

/-- Go's `os.Exit(status)`: the process ends at once. -/
def osExit {α : Type} (status : Nat) : Prog α := fun tr => (.exit status, tr)

/-- Go's `defer`: `deferred` runs when the rest of the function returns and
when it panics (the panic goes on afterwards); it does not run when the
process ends through `os.Exit`. -/
def withDefer {α : Type} (deferred : Prog Unit) (rest : Prog α) : Prog α := fun tr =>
  match rest tr with
  | (.ret a, tr1) => (.ret a, (deferred tr1).2)
  | (.panic e, tr1) => (.panic e, (deferred tr1).2)
  | (.exit n, tr1) => (.exit n, tr1)

/-! ## Formatting -/

/-- `fmt.Sprintln` on operands already in their default format: a space
between operands, a newline at the end. -/
def Sprintln (operands : List String) : String :=
  " ".intercalate operands ++ "\n"

/-- The default format of an `error` operand: `<nil>` for nil, else its text. -/
def fmtError : Option String → String
  | none => "<nil>"
  | some text => text

/-- `fmt.Println` to standard output. -/
def fmtPrintln (operands : List String) : Prog Unit :=
  emit (.stdout (Sprintln operands))

/-- `log.Println`. -/
def logPrintln (operands : List String) : Prog Unit :=
  emit (.log (Sprintln operands))

/-- `log.Fatalf` once the format is applied: the message is logged, then
`os.Exit(1)`. -/
def logFatalf {α : Type} (msg : String) : Prog α := do
  emit (.log msg)
  osExit 1

/-! ## The environment -/

/-- The flags after `flag.Parse()`. -/
structure Flags where
  BucketName : String
  region : String
  key : String
  deriving DecidableEq, Repr

/-- The S3 client built by `s3.New`: for each operation, the response (as
`awsutil.StringValue` renders it) and the error it returns. -/
structure S3 where
  PutObject : PutObjectInput → String × Option GoError
  ListObjects : ListObjectsInput → String × Option GoError
  HeadObject : HeadObjectInput → String × Option GoError
  CopyObject : CopyObjectInput → String × Option GoError
  DeleteObject : DeleteObjectInput → String × Option GoError

/-- Everything outside the program: `os.Open` (a handle, or the text of the
error) and `s3.New` for a region. -/
structure Env where
  Open : String → Except String File
  New : String → S3

/-- Sending a request: the event, then the service's answer. -/
def send {α : Type} (r : Request) (answer : α) : Prog α := do
  emit (.request r)
  pure answer

/-! ## The program -/

/-- The `handleError` helper of `s3_misc.go`. -/
def handleError (err : Option GoError) : Prog Unit :=
  match asAwsError err with
  | some awsErr => do
    logPrintln [awsErr.code, awsErr.message, awsErr.error, fmtError awsErr.origErr]
    match asRequestFailure err with
    | some reqErr => logPrintln [toString reqErr.1, reqErr.2]
    | none => pure ()
  | none =>
    match err with
    | some e => goPanic e
    | none => pure ()

def params (flags : Flags) (f : File) : PutObjectInput :=
  { Body := f, Key := flags.key ++ "/path-to-readme.md", Bucket := flags.BucketName }

def listParams (flags : Flags) : ListObjectsInput :=
  { Bucket := flags.BucketName, Prefix := flags.key }

def headParams (flags : Flags) : HeadObjectInput :=
  { Bucket := flags.BucketName, Key := flags.key ++ "/path-to-readme.md" }

/-- The `copyParams` of `main`; the `CopySource` is
`fmt.Sprintf("%s/%s/path-to-readme.md", *BucketName, *key)`. -/
def copyParams (flags : Flags) : CopyObjectInput :=
  { Bucket := flags.BucketName,
    CopySource := flags.BucketName ++ "/" ++ flags.key ++ "/path-to-readme.md",
    Key := flags.key ++ "/path-to-readme-copy.md" }

def deleteParams (flags : Flags) : DeleteObjectInput :=
  { Bucket := flags.BucketName, Key := flags.key ++ "/path-to-readme-copy.md" }

/-- The `main` of `s3_misc.go`. -/
def main (flags : Flags) (env : Env) : Prog Unit := do
  let s := env.New flags.region
  emit (.osOpen "./README.md")
  match env.Open "./README.md" with
  | .error err => logFatalf ("[err] " ++ err)
  | .ok f =>
    withDefer (emit (.close f)) do
      let params := params flags f
      let (resp, err) ← send (.put params) (s.PutObject params)
      handleError err
      fmtPrintln [resp]
      let listParams := listParams flags
      let (listResp, err) ← send (.list listParams) (s.ListObjects listParams)
      handleError err
      fmtPrintln [listResp]
      let headParams := headParams flags
      let (headResp, err) ← send (.head headParams) (s.HeadObject headParams)
      handleError err
      fmtPrintln [headResp]
      let copyParams := copyParams flags
      let (copyResp, err) ← send (.copy copyParams) (s.CopyObject copyParams)
      handleError err
      fmtPrintln [copyResp]
      let deleteParams := deleteParams flags
      let (deleteResp, err) ← send (.delete deleteParams) (s.DeleteObject deleteParams)
      handleError err
      fmtPrintln [deleteResp]

/-- A run of the process from the empty trace. -/
def run (flags : Flags) (env : Env) : Ctl Unit × List Event := main flags env []

/-- The events of a run, in order. -/
def trace (flags : Flags) (env : Env) : List Event := (run flags env).2

/-- The way the process ends. -/
def outcome (flags : Flags) (env : Env) : Ctl Unit := (run flags env).1

/-- The exit status of the process: 0 when `main` returns, 2 after a panic,
the argument of `os.Exit` otherwise. -/
def exitStatus : Ctl Unit → Nat
  | .ret _ => 0
  | .panic _ => 2
  | .exit n => n

/-- A call of `os.Open`. -/
def Event.isOpen : Event → Bool
  | .osOpen _ => true
  | _ => false

/-- A call of `Close` on a file. -/
def Event.isClose : Event → Bool
  | .close _ => true
  | _ => false

/-! ## The five steps -/

/-- The five steps of `main`, in program order. -/
inductive Step where
  | put | list | head | copy | delete
  deriving DecidableEq, Repr

/-- The position of a step in the sequence. -/
def Step.idx : Step → Nat
  | .put => 0
  | .list => 1
  | .head => 2
  | .copy => 3
  | .delete => 4

/-- The request `main` builds for a step. -/
def requestOf (flags : Flags) (f : File) : Step → Request
  | .put => .put (params flags f)
  | .list => .list (listParams flags)
  | .head => .head (headParams flags)
  | .copy => .copy (copyParams flags)
  | .delete => .delete (deleteParams flags)

/-- The answer of the client to the request of a step. -/
def answerOf (flags : Flags) (s : S3) (f : File) : Step → String × Option GoError
  | .put => s.PutObject (params flags f)
  | .list => s.ListObjects (listParams flags)
  | .head => s.HeadObject (headParams flags)
  | .copy => s.CopyObject (copyParams flags)
  | .delete => s.DeleteObject (deleteParams flags)

/-- The error a step returns in a run. -/
def errOf (flags : Flags) (env : Env) (f : File) (i : Step) : Option GoError :=
  (answerOf flags (env.New flags.region) f i).2

/-- The rendered response a step returns in a run. -/
def respOf (flags : Flags) (env : Env) (f : File) (i : Step) : String :=
  (answerOf flags (env.New flags.region) f i).1

/-- A non-nil error that does not implement `awserr.Error`. -/
def isUnclassified (err : Option GoError) : Bool :=
  err.isSome && (asAwsError err).isNone

/-- The log lines `handleError` writes for an error. -/
def logLines (err : Option GoError) : List Event := (handleError err []).2

/-- The events of one step that goes through: request, log lines, response. -/
def stepEvents (flags : Flags) (env : Env) (f : File) (i : Step) : List Event :=
  Event.request (requestOf flags f i) :: logLines (errOf flags env f i)
    ++ [Event.stdout (Sprintln [respOf flags env f i])]

/-- The events of the steps from a list, up to the first unclassified error. -/
def stepsTrace (flags : Flags) (env : Env) (f : File) : List Step → List Event
  | [] => []
  | i :: rest =>
    if isUnclassified (errOf flags env f i) then [Event.request (requestOf flags f i)]
    else stepEvents flags env f i ++ stepsTrace flags env f rest

def allSteps : List Step := [.put, .list, .head, .copy, .delete]

/-- The first unclassified error among the steps of a list, if any. -/
def firstUnclassified (flags : Flags) (env : Env) (f : File) : List Step → Option GoError
  | [] => none
  | i :: rest =>
    if isUnclassified (errOf flags env f i) then errOf flags env f i
    else firstUnclassified flags env f rest

/-- The end of the steps: a panic with the first unclassified error, else a
return. -/
def endOf : Option GoError → Ctl Unit
  | none => .ret ()
  | some e => .panic e

/-! ## Sample environments -/

def readme : File := { name := "./README.md", fd := 3 }

def demoFlags : Flags := { BucketName := "b", region := "ap-northeast-1", key := "k" }

/-- A client whose five operations all answer with no error. -/
def okS3 : S3 :=
  { PutObject := fun _ => ("put", none),
    ListObjects := fun _ => ("list", none),
    HeadObject := fun _ => ("head", none),
    CopyObject := fun _ => ("copy", none),
    DeleteObject := fun _ => ("delete", none) }

/-- The file opens and every call succeeds. -/
def okEnv : Env := { Open := fun _ => .ok readme, New := fun _ => okS3 }

/-- The file does not open. -/
def noFileEnv : Env :=
  { Open := fun _ => .error "open ./README.md: no such file or directory",
    New := fun _ => okS3 }

/-- A request failure as the service returns it: an `awserr.RequestFailure`. -/
def accessDenied : GoError :=
  .requestFailure
    { code := "AccessDenied", message := "Access Denied",
      error := "AccessDenied: Access Denied", origErr := none }
    403 "4442587FB7D0A2F9"

/-- The upload is refused with a request failure; the other calls succeed. -/
def deniedEnv : Env :=
  { Open := fun _ => .ok readme,
    New := fun _ => { okS3 with PutObject := fun _ => ("", some accessDenied) } }

/-- Every one of the five calls is refused with a request failure. -/
def allDeniedEnv : Env :=
  { Open := fun _ => .ok readme,
    New := fun _ =>
      { PutObject := fun _ => ("", some accessDenied),
        ListObjects := fun _ => ("", some accessDenied),
        HeadObject := fun _ => ("", some accessDenied),
        CopyObject := fun _ => ("", some accessDenied),
        DeleteObject := fun _ => ("", some accessDenied) } }

/-- The listing fails with an error that is not an `awserr.Error`. -/
def brokenListEnv : Env :=
  { Open := fun _ => .ok readme,
    New := fun _ =>
      { okS3 with ListObjects := fun _ => ("", some (.other "unexpected EOF")) } }

/-! ## Lemmas on the control operators -/

theorem bind_apply {α β : Type} (m : Prog α) (k : α → Prog β) (tr : List Event) :
    (m >>= k) tr = Prog.bind m k tr := rfl

theorem pure_apply {α : Type} (a : α) (tr : List Event) :
    (pure a : Prog α) tr = (.ret a, tr) := rfl

theorem handleError_nil (tr : List Event) : handleError none tr = (.ret (), tr) := rfl

theorem handleError_other (text : String) (tr : List Event) :
    handleError (some (.other text)) tr = (.panic (.other text), tr) := rfl

theorem handleError_awsError (a : AwsError) (tr : List Event) :
    handleError (some (.awsError a)) tr =
      (.ret (), tr ++ [Event.log (Sprintln [a.code, a.message, a.error, fmtError a.origErr])]) :=
  rfl

theorem handleError_requestFailure (a : AwsError) (sc : Int) (rid : String) (tr : List Event) :
    handleError (some (.requestFailure a sc rid)) tr =
      (.ret (), tr ++ [Event.log (Sprintln [a.code, a.message, a.error, fmtError a.origErr])]
        ++ [Event.log (Sprintln [toString sc, rid])]) :=
  rfl

/-- An error that is nil or classified: `handleError` returns after its log
lines. -/
theorem handleError_classified (err : Option GoError) (h : isUnclassified err = false)
    (tr : List Event) : handleError err tr = (.ret (), tr ++ logLines err) := by
  rcases err with _ | (a | ⟨a, sc, rid⟩ | t)
  · simp [logLines, handleError_nil]
  · simp [logLines, handleError_awsError]
  · simp [logLines, handleError_requestFailure]
  · simp [isUnclassified, asAwsError] at h

/-- An unclassified error: `handleError` panics with it, and logs nothing. -/
theorem handleError_unclassified (err : Option GoError) (h : isUnclassified err = true)
    (tr : List Event) : ∃ e, err = some e ∧ handleError err tr = (.panic e, tr) := by
  rcases err with _ | (a | ⟨a, sc, rid⟩ | t)
  · simp [isUnclassified] at h
  · simp [isUnclassified, asAwsError] at h
  · simp [isUnclassified, asAwsError] at h
  · exact ⟨_, rfl, rfl⟩

/-- One step of `main` in front of a continuation: the request is sent, then
either `handleError` panics, or the log lines and the response are written and
the continuation runs. -/
theorem step_apply (r : Request) (ans : String × Option GoError) (k : Prog Unit)
    (tr : List Event) :
    (do
      let (resp, err) ← send r ans
      handleError err
      fmtPrintln [resp]
      k : Prog Unit) tr =
    if isUnclassified ans.2 then (endOf ans.2, tr ++ [Event.request r])
    else k (tr ++ (Event.request r :: logLines ans.2 ++ [Event.stdout (Sprintln [ans.1])])) := by
  obtain ⟨resp, err⟩ := ans
  cases h : isUnclassified err
  · simp [bind_apply, Prog.bind, send, emit, pure_apply, handleError_classified err h,
      fmtPrintln]
  · obtain ⟨e, rfl, he⟩ := handleError_unclassified err h (tr ++ [Event.request r])
    simp [bind_apply, Prog.bind, send, emit, pure_apply, he, endOf]

/-- The last step of `main`: as `step_apply`, with nothing after the response. -/
theorem step_last (r : Request) (ans : String × Option GoError) (tr : List Event) :
    (do
      let (resp, err) ← send r ans
      handleError err
      fmtPrintln [resp] : Prog Unit) tr =
    if isUnclassified ans.2 then (endOf ans.2, tr ++ [Event.request r])
    else (.ret (),
      tr ++ (Event.request r :: logLines ans.2 ++ [Event.stdout (Sprintln [ans.1])])) := by
  obtain ⟨resp, err⟩ := ans
  cases h : isUnclassified err
  · simp [bind_apply, Prog.bind, send, emit, pure_apply, handleError_classified err h,
      fmtPrintln]
  · obtain ⟨e, rfl, he⟩ := handleError_unclassified err h (tr ++ [Event.request r])
    simp [bind_apply, Prog.bind, send, emit, pure_apply, he, endOf]

/-- The deferred call runs after steps that end by a return or by a panic. -/
theorem withDefer_endOf (d : Event) (rest : Prog Unit) (err : Option GoError)
    (tr tr1 : List Event) (h : rest tr = (endOf err, tr1)) :
    withDefer (emit d) rest tr = (endOf err, tr1 ++ [d]) := by
  unfold withDefer
  rw [h]
  cases err <;> rfl

/-- A run in which the file opens, in closed form: the open, the steps up to
the first unclassified error, the deferred close. -/
theorem run_of_open (flags : Flags) (env : Env) (f : File)
    (hopen : env.Open "./README.md" = .ok f) :
    run flags env =
      (endOf (firstUnclassified flags env f allSteps),
        Event.osOpen "./README.md" :: stepsTrace flags env f allSteps ++ [Event.close f]) := by
  have h1 := fun k => funext (step_apply (.put (params flags f))
    ((env.New flags.region).PutObject (params flags f)) k)
  have h2 := fun k => funext (step_apply (.list (listParams flags))
    ((env.New flags.region).ListObjects (listParams flags)) k)
  have h3 := fun k => funext (step_apply (.head (headParams flags))
    ((env.New flags.region).HeadObject (headParams flags)) k)
  have h4 := fun k => funext (step_apply (.copy (copyParams flags))
    ((env.New flags.region).CopyObject (copyParams flags)) k)
  have h5 := funext (step_last (.delete (deleteParams flags))
    ((env.New flags.region).DeleteObject (deleteParams flags)))
  unfold run main
  simp only [bind_apply, Prog.bind, emit, hopen, List.nil_append]
  rw [h1, h2, h3, h4, h5]
  refine (withDefer_endOf (Event.close f) _ (firstUnclassified flags env f allSteps) _
    (Event.osOpen "./README.md" :: stepsTrace flags env f allSteps) ?_).trans (by simp)
  simp only [allSteps, stepsTrace, firstUnclassified, stepEvents, errOf, respOf, answerOf,
    requestOf]
  split_ifs <;> simp [endOf]

/-- A run in which the file does not open: the message is logged and the
process ends through `os.Exit(1)`. -/
theorem run_of_open_error (flags : Flags) (env : Env) (msg : String)
    (hopen : env.Open "./README.md" = .error msg) :
    run flags env =
      (.exit 1, [Event.osOpen "./README.md", Event.log ("[err] " ++ msg)]) := by
  unfold run main
  simp [bind_apply, Prog.bind, emit, hopen, logFatalf, osExit]

/-- A statement about every step is a statement about each of the five. -/
theorem forall_step (P : Step → Prop) :
    (∀ k, P k) ↔ P .put ∧ P .list ∧ P .head ∧ P .copy ∧ P .delete :=
  ⟨fun h => ⟨h _, h _, h _, h _, h _⟩,
   fun ⟨h1, h2, h3, h4, h5⟩ k => by cases k <;> assumption⟩

/-- The log lines of `handleError` are log events. -/
theorem mem_logLines (err : Option GoError) (ev : Event) (h : ev ∈ logLines err) :
    ∃ text, ev = Event.log text := by
  rcases err with _ | (a | ⟨a, sc, rid⟩ | t)
  · simp [logLines, handleError_nil] at h
  · simp [logLines, handleError_awsError] at h
    exact ⟨_, h⟩
  · simp [logLines, handleError_requestFailure] at h
    rcases h with h | h <;> exact ⟨_, h⟩
  · simp [logLines, handleError_other] at h

theorem request_not_mem_logLines (err : Option GoError) (r : Request) :
    Event.request r ∉ logLines err := by
  intro h
  obtain ⟨text, ht⟩ := mem_logLines err _ h
  cases ht

/-- In a run in which the file opens, the request of a step is issued exactly
when no earlier step returned an unclassified error. -/
theorem request_mem_trace_iff (flags : Flags) (env : Env) (f : File)
    (hopen : env.Open "./README.md" = .ok f) (j : Step) :
    Event.request (requestOf flags f j) ∈ trace flags env ↔
      ∀ k : Step, k.idx < j.idx → isUnclassified (errOf flags env f k) = false := by
  simp only [trace, run_of_open flags env f hopen, forall_step, allSteps, stepsTrace,
    stepEvents]
  cases j <;> split_ifs <;>
    simp [requestOf, Step.idx, request_not_mem_logLines, *]

/-- The events of the steps are requests of steps, log lines and responses. -/
theorem mem_stepsTrace (flags : Flags) (env : Env) (f : File) (steps : List Step)
    (ev : Event) (h : ev ∈ stepsTrace flags env f steps) :
    (∃ j, ev = Event.request (requestOf flags f j)) ∨ (∃ text, ev = Event.log text) ∨
      ∃ text, ev = Event.stdout text := by
  induction steps with
  | nil => simp [stepsTrace] at h
  | cons i rest ih =>
    simp only [stepsTrace, stepEvents] at h
    split_ifs at h
    · simp only [List.mem_singleton] at h
      exact Or.inl ⟨i, h⟩
    · simp only [List.cons_append, List.mem_cons, List.mem_append, List.append_assoc,
        List.mem_singleton, List.not_mem_nil, or_false, false_or] at h
      rcases h with h | h | h | h
      · exact Or.inl ⟨i, h⟩
      · exact Or.inr (Or.inl (mem_logLines _ _ h))
      · exact Or.inr (Or.inr ⟨_, h⟩)
      · exact ih h

/-- Every request of a run is the request `main` builds for one of the five
steps, and the file has opened. -/
theorem request_mem_trace (flags : Flags) (env : Env) (r : Request)
    (h : Event.request r ∈ trace flags env) :
    ∃ f j, env.Open "./README.md" = .ok f ∧ r = requestOf flags f j := by
  rcases hopen : env.Open "./README.md" with msg | f
  · simp [trace, run_of_open_error flags env msg hopen] at h
  · simp only [trace, run_of_open flags env f hopen, List.mem_cons, List.mem_append,
      List.mem_singleton, List.not_mem_nil, reduceCtorEq, false_or, or_false] at h
    rcases mem_stepsTrace flags env f allSteps _ h with ⟨j, hj⟩ | ⟨t, ht⟩ | ⟨t, ht⟩
    · exact ⟨f, j, rfl, Event.request.inj hj⟩
    · cases ht
    · cases ht

/-- Cancelling a common start of two strings. -/
theorem string_append_left_cancel (s a b : String) (h : s ++ a = s ++ b) : a = b := by
  have hd := congrArg String.data h
  simp only [String.data_append] at hd
  exact String.ext (List.append_cancel_left hd)

/-- The first operand of `Sprintln` is in its output. -/
theorem occurs_append_left (s t : String) : s.data <:+: (s ++ t).data := by
  rw [String.data_append]
  exact List.infix_append' [] s.data t.data

/-- The last operand before the end of a text is in the text. -/
theorem occurs_append_right (s t u : String) : t.data <:+: (s ++ t ++ u).data := by
  rw [String.data_append, String.data_append]
  exact List.infix_append s.data t.data u.data

/-- A text inside the start of a longer text is inside the longer text. -/
theorem occurs_append_of_occurs (s t u : String) (h : s.data <:+: t.data) :
    s.data <:+: (t ++ u).data := by
  rw [String.data_append]
  exact h.trans (List.infix_append' [] t.data u.data)

/-- The events of the steps open and close no file. -/
theorem stepsTrace_no_file_event (flags : Flags) (env : Env) (f : File) (steps : List Step)
    (ev : Event) (h : ev ∈ stepsTrace flags env f steps) :
    ev.isOpen = false ∧ ev.isClose = false := by
  rcases mem_stepsTrace flags env f steps ev h with ⟨j, rfl⟩ | ⟨t, rfl⟩ | ⟨t, rfl⟩ <;>
    exact ⟨rfl, rfl⟩

/-! ## The claims -/

/-- C1: when `./README.md` opens and the five calls return no error, the run
is the open, then Put, print, List, print, Head, print, Copy, print, Delete,
print (each request followed by its own response on standard output), then the
deferred close; nothing is logged and `main` returns, exit status 0. -/
theorem main_success_trace (flags : Flags) (env : Env) (f : File)
    (hopen : env.Open "./README.md" = .ok f)
    (herr : ∀ i, errOf flags env f i = none) :
    trace flags env =
      [Event.osOpen "./README.md",
       Event.request (.put (params flags f)),
       Event.stdout (Sprintln [respOf flags env f .put]),
       Event.request (.list (listParams flags)),
       Event.stdout (Sprintln [respOf flags env f .list]),
       Event.request (.head (headParams flags)),
       Event.stdout (Sprintln [respOf flags env f .head]),
       Event.request (.copy (copyParams flags)),
       Event.stdout (Sprintln [respOf flags env f .copy]),
       Event.request (.delete (deleteParams flags)),
       Event.stdout (Sprintln [respOf flags env f .delete]),
       Event.close f] ∧
    outcome flags env = .ret () ∧ exitStatus (outcome flags env) = 0 := by
  have hun : ∀ i, isUnclassified (errOf flags env f i) = false := by
    intro i
    rw [herr i]
    rfl
  simp [trace, outcome, run_of_open flags env f hopen, allSteps, stepsTrace,
    firstUnclassified, stepEvents, hun, herr, logLines, handleError_nil, endOf, exitStatus,
    requestOf, show isUnclassified none = false from rfl]

theorem main_success_trace_witness :
    trace demoFlags okEnv =
      [Event.osOpen "./README.md",
       Event.request (.put { Body := readme, Key := "k/path-to-readme.md", Bucket := "b" }),
       Event.stdout "put\n",
       Event.request (.list { Bucket := "b", Prefix := "k" }),
       Event.stdout "list\n",
       Event.request (.head { Bucket := "b", Key := "k/path-to-readme.md" }),
       Event.stdout "head\n",
       Event.request (.copy
         { Bucket := "b", CopySource := "b/k/path-to-readme.md",
           Key := "k/path-to-readme-copy.md" }),
       Event.stdout "copy\n",
       Event.request (.delete { Bucket := "b", Key := "k/path-to-readme-copy.md" }),
       Event.stdout "delete\n",
       Event.close readme] ∧
    outcome demoFlags okEnv = .ret () ∧ exitStatus (outcome demoFlags okEnv) = 0 :=
  main_success_trace demoFlags okEnv readme rfl (fun i => by cases i <;> rfl)

/-- C4: when `./README.md` does not open, the error is logged by `log.Fatalf`
and the process ends through `os.Exit(1)`; the trace holds no request of any
kind. -/
theorem main_open_error (flags : Flags) (env : Env) (msg : String)
    (hopen : env.Open "./README.md" = .error msg) :
    outcome flags env = .exit 1 ∧ exitStatus (outcome flags env) = 1 ∧
    trace flags env = [Event.osOpen "./README.md", Event.log ("[err] " ++ msg)] ∧
    ∀ r, Event.request r ∉ trace flags env := by
  simp [trace, outcome, run_of_open_error flags env msg hopen, exitStatus]

theorem main_open_error_witness :
    outcome demoFlags noFileEnv = .exit 1 ∧ exitStatus (outcome demoFlags noFileEnv) = 1 ∧
    trace demoFlags noFileEnv =
      [Event.osOpen "./README.md",
       Event.log ("[err] " ++ "open ./README.md: no such file or directory")] ∧
    ∀ r, Event.request r ∉ trace demoFlags noFileEnv :=
  main_open_error demoFlags noFileEnv _ rfl

/-- C2, as the code has it: in a run in which the file opens, the request of
a step is issued exactly when no earlier step returned an unclassified error
(a non-nil error that is not an `awserr.Error`).  So an unclassified error
aborts the remaining steps, and a service-classified error, logged by
`handleError`, does not. -/
theorem request_issued_iff (flags : Flags) (env : Env) (f : File)
    (hopen : env.Open "./README.md" = .ok f) (j : Step) :
    Event.request (requestOf flags f j) ∈ trace flags env ↔
      ∀ k : Step, k.idx < j.idx → isUnclassified (errOf flags env f k) = false :=
  request_mem_trace_iff flags env f hopen j

theorem request_issued_iff_witness :
    Event.request (requestOf demoFlags readme .head) ∈ trace demoFlags brokenListEnv ↔
      ∀ k : Step, k.idx < Step.head.idx →
        isUnclassified (errOf demoFlags brokenListEnv readme k) = false :=
  request_issued_iff demoFlags brokenListEnv readme rfl .head

/-- C2 fails as stated: the upload returns a non-nil error (a request
failure), and the requests of the four later steps are issued all the same. -/
theorem classified_error_does_not_abort :
    errOf demoFlags deniedEnv readme .put = some accessDenied ∧
    Event.request (requestOf demoFlags readme .list) ∈ trace demoFlags deniedEnv ∧
    Event.request (requestOf demoFlags readme .head) ∈ trace demoFlags deniedEnv ∧
    Event.request (requestOf demoFlags readme .copy) ∈ trace demoFlags deniedEnv ∧
    Event.request (requestOf demoFlags readme .delete) ∈ trace demoFlags deniedEnv := by
  decide

/-- C3: an error that is non-nil and not an `awserr.Error` makes `handleError`
panic with it, nothing logged.  In a run in which the file opens and a step
that is issued returns such an error, the process ends by that panic (exit
status 2), the request of the step is the last event before the deferred
close (so the response of the step is not printed), and no request of a later
step is issued. -/
theorem unclassified_error_panics (flags : Flags) (env : Env) (f : File)
    (hopen : env.Open "./README.md" = .ok f) (i : Step) (e : GoError)
    (hissued : Event.request (requestOf flags f i) ∈ trace flags env)
    (herr : errOf flags env f i = some e) (hun : asAwsError (some e) = none) :
    (∀ tr, handleError (some e) tr = (.panic e, tr)) ∧
    outcome flags env = .panic e ∧ exitStatus (outcome flags env) = 2 ∧
    (∃ pre, trace flags env = pre ++ [Event.request (requestOf flags f i), Event.close f]) ∧
    ∀ j : Step, i.idx < j.idx → Event.request (requestOf flags f j) ∉ trace flags env := by
  have hi : isUnclassified (errOf flags env f i) = true := by
    rw [herr]
    simp [isUnclassified, hun]
  have hreach := (request_mem_trace_iff flags env f hopen i).1 hissued
  refine ⟨?_, ?_, ?_, ?_, ?_⟩
  · intro tr
    obtain ⟨e1, he1, hp⟩ := handleError_unclassified (some e) (by simp [isUnclassified, hun]) tr
    cases he1
    exact hp
  · simp only [outcome, run_of_open flags env f hopen, allSteps, firstUnclassified]
    cases i <;> simp_all [Step.idx, forall_step, endOf]
  · simp only [outcome, run_of_open flags env f hopen, allSteps, firstUnclassified]
    cases i <;> simp_all [Step.idx, forall_step, endOf, exitStatus]
  · refine ⟨Event.osOpen "./README.md" ::
      List.foldr (fun k acc => stepEvents flags env f k ++ acc) [] (allSteps.take i.idx), ?_⟩
    simp only [trace, run_of_open flags env f hopen, allSteps, stepsTrace]
    cases i <;> simp_all [Step.idx, forall_step]
  · intro j hj hmem
    have := (request_mem_trace_iff flags env f hopen j).1 hmem i hj
    rw [hi] at this
    cases this

theorem unclassified_error_panics_witness :
    (∀ tr, handleError (some (.other "unexpected EOF")) tr =
      (.panic (.other "unexpected EOF"), tr)) ∧
    outcome demoFlags brokenListEnv = .panic (.other "unexpected EOF") ∧
    exitStatus (outcome demoFlags brokenListEnv) = 2 ∧
    (∃ pre, trace demoFlags brokenListEnv =
      pre ++ [Event.request (requestOf demoFlags readme .list), Event.close readme]) ∧
    ∀ j : Step, Step.list.idx < j.idx →
      Event.request (requestOf demoFlags readme j) ∉ trace demoFlags brokenListEnv :=
  unclassified_error_panics demoFlags brokenListEnv readme rfl .list (.other "unexpected EOF")
    (by decide) rfl rfl

/-- C5, as the code has it: `main` returns (exit status 0) exactly when the
file opens and no step returns an unclassified error; an error that is an
`awserr.Error` is logged and does not stand in the way of a normal exit. -/
theorem normal_exit_iff (flags : Flags) (env : Env) :
    (outcome flags env = .ret () ↔
      ∃ f, env.Open "./README.md" = .ok f ∧
        ∀ k : Step, isUnclassified (errOf flags env f k) = false) ∧
    (exitStatus (outcome flags env) = 0 ↔ outcome flags env = .ret ()) := by
  have hsome : ∀ err, isUnclassified err = true → ∃ e, err = some e := by
    intro err h
    cases err with
    | none => simp [isUnclassified] at h
    | some e => exact ⟨e, rfl⟩
  rcases hopen : env.Open "./README.md" with msg | f
  · simp [outcome, run_of_open_error flags env msg hopen, exitStatus]
  · simp only [outcome, run_of_open flags env f hopen, allSteps, firstUnclassified,
      forall_step, Except.ok.injEq, exists_eq_left']
    split_ifs with h1 h2 h3 h4 h5
    · obtain ⟨e, he⟩ := hsome _ h1
      have hend : endOf (errOf flags env f .put) = .panic e := by rw [he]; rfl
      simp [hend, exitStatus, h1]
    · obtain ⟨e, he⟩ := hsome _ h2
      have hend : endOf (errOf flags env f .list) = .panic e := by rw [he]; rfl
      simp [hend, exitStatus, h2]
    · obtain ⟨e, he⟩ := hsome _ h3
      have hend : endOf (errOf flags env f .head) = .panic e := by rw [he]; rfl
      simp [hend, exitStatus, h3]
    · obtain ⟨e, he⟩ := hsome _ h4
      have hend : endOf (errOf flags env f .copy) = .panic e := by rw [he]; rfl
      simp [hend, exitStatus, h4]
    · obtain ⟨e, he⟩ := hsome _ h5
      have hend : endOf (errOf flags env f .delete) = .panic e := by rw [he]; rfl
      simp [hend, exitStatus, h5]
    · simp [endOf, exitStatus, h1, h2, h3, h4, h5]

/-- C5 fails as stated: every one of the five calls returns a non-nil error (a
request failure), and `main` still returns, exit status 0. -/
theorem all_calls_fail_normal_exit :
    errOf demoFlags allDeniedEnv readme .put = some accessDenied ∧
    errOf demoFlags allDeniedEnv readme .list = some accessDenied ∧
    errOf demoFlags allDeniedEnv readme .head = some accessDenied ∧
    errOf demoFlags allDeniedEnv readme .copy = some accessDenied ∧
    errOf demoFlags allDeniedEnv readme .delete = some accessDenied ∧
    outcome demoFlags allDeniedEnv = .ret () ∧
    exitStatus (outcome demoFlags allDeniedEnv) = 0 :=
  ⟨rfl, rfl, rfl, rfl, rfl, rfl, rfl⟩

/-- C6: for a request failure, `handleError` returns after writing two log
lines: first the code, the message, the error text and the underlying cause,
then the status code and the request identifier.  The code, the message, the
error text and the cause are in the first line, the status code and the
request identifier in the second.  The cause is written as `OrigErr()` gives
it: when `OrigErr()` is an error with text `cause`, the first line ends with
`cause` and a newline; when it is nil, with `<nil>` and a newline. -/
theorem handleError_logs_request_failure (a : AwsError) (statusCode : Int)
    (requestID : String) (tr : List Event) :
    handleError (some (.requestFailure a statusCode requestID)) tr =
      (.ret (), tr ++
        [Event.log (a.code ++ " " ++ a.message ++ " " ++ a.error ++ " " ++
            fmtError a.origErr ++ "\n"),
         Event.log (toString statusCode ++ " " ++ requestID ++ "\n")]) ∧
    a.code.data <:+:
      (a.code ++ " " ++ a.message ++ " " ++ a.error ++ " " ++ fmtError a.origErr ++ "\n").data ∧
    a.message.data <:+:
      (a.code ++ " " ++ a.message ++ " " ++ a.error ++ " " ++ fmtError a.origErr ++ "\n").data ∧
    a.error.data <:+:
      (a.code ++ " " ++ a.message ++ " " ++ a.error ++ " " ++ fmtError a.origErr ++ "\n").data ∧
    (fmtError a.origErr).data <:+:
      (a.code ++ " " ++ a.message ++ " " ++ a.error ++ " " ++ fmtError a.origErr ++ "\n").data ∧
    (toString statusCode).data <:+: (toString statusCode ++ " " ++ requestID ++ "\n").data ∧
    requestID.data <:+: (toString statusCode ++ " " ++ requestID ++ "\n").data ∧
    (∀ cause : String, a.origErr = some cause →
      handleError (some (.requestFailure a statusCode requestID)) tr =
        (.ret (), tr ++
          [Event.log (a.code ++ " " ++ a.message ++ " " ++ a.error ++ " " ++ cause ++ "\n"),
           Event.log (toString statusCode ++ " " ++ requestID ++ "\n")]) ∧
      cause.data <:+:
        (a.code ++ " " ++ a.message ++ " " ++ a.error ++ " " ++ cause ++ "\n").data) ∧
    (a.origErr = none →
      handleError (some (.requestFailure a statusCode requestID)) tr =
        (.ret (), tr ++
          [Event.log (a.code ++ " " ++ a.message ++ " " ++ a.error ++ " " ++ "<nil>" ++ "\n"),
           Event.log (toString statusCode ++ " " ++ requestID ++ "\n")]) ∧
      "<nil>".data <:+:
        (a.code ++ " " ++ a.message ++ " " ++ a.error ++ " " ++ "<nil>" ++ "\n").data) := by
  have hrun : handleError (some (.requestFailure a statusCode requestID)) tr =
      (.ret (), tr ++
        [Event.log (a.code ++ " " ++ a.message ++ " " ++ a.error ++ " " ++
            fmtError a.origErr ++ "\n"),
         Event.log (toString statusCode ++ " " ++ requestID ++ "\n")]) := by
    rw [handleError_requestFailure]
    simp [Sprintln, String.intercalate, String.intercalate.go]
  refine ⟨hrun, ?_, ?_, ?_, ?_, ?_, ?_, ?_, ?_⟩
  rotate_left 6
  · intro cause hc
    rw [hc] at hrun
    exact ⟨hrun, occurs_append_right _ _ _⟩
  · intro hn
    rw [hn] at hrun
    exact ⟨hrun, occurs_append_right _ _ _⟩
  · exact occurs_append_of_occurs _ _ _ (occurs_append_of_occurs _ _ _
      (occurs_append_of_occurs _ _ _ (occurs_append_of_occurs _ _ _
        (occurs_append_of_occurs _ _ _ (occurs_append_of_occurs _ _ _
          (occurs_append_left _ _))))))
  · exact occurs_append_of_occurs _ _ _ (occurs_append_of_occurs _ _ _
      (occurs_append_of_occurs _ _ _ (occurs_append_of_occurs _ _ _
        (occurs_append_right _ _ _))))
  · exact occurs_append_of_occurs _ _ _ (occurs_append_of_occurs _ _ _
      (occurs_append_right _ _ _))
  · exact occurs_append_right _ _ _
  · exact occurs_append_of_occurs _ _ _ (occurs_append_of_occurs _ _ _ (occurs_append_left _ _))
  · exact occurs_append_right _ _ _

theorem handleError_logs_request_failure_witness :
    handleError (some (.requestFailure
        { code := "SlowDown", message := "Reduce your request rate",
          error := "SlowDown: Reduce your request rate", origErr := some "connection reset" }
        503 "79104EXAMPLEB723")) [Event.osOpen "./README.md"] =
      (.ret (),
        [Event.osOpen "./README.md",
         Event.log "SlowDown Reduce your request rate SlowDown: Reduce your request rate connection reset\n",
         Event.log "503 79104EXAMPLEB723\n"]) ∧
    handleError (some accessDenied) [] =
      (.ret (),
        [Event.log "AccessDenied Access Denied AccessDenied: Access Denied <nil>\n",
         Event.log "403 4442587FB7D0A2F9\n"]) :=
  ⟨(handleError_logs_request_failure
      { code := "SlowDown", message := "Reduce your request rate",
        error := "SlowDown: Reduce your request rate", origErr := some "connection reset" }
      503 "79104EXAMPLEB723" [Event.osOpen "./README.md"]).2.2.2.2.2.2.2.1
      "connection reset" rfl |>.1,
   (handleError_logs_request_failure
      { code := "AccessDenied", message := "Access Denied",
        error := "AccessDenied: Access Denied", origErr := none }
      403 "4442587FB7D0A2F9" []).2.2.2.2.2.2.2.2 rfl |>.1⟩

/-- C7: the key of the DeleteObject request is the key of the CopyObject
request, the prefix followed by `/path-to-readme-copy.md`, and the two
requests name the same bucket; so it is for the parameters `main` builds and
for every copy request and delete request a run issues. -/
theorem delete_key_eq_copy_key (flags : Flags) :
    (deleteParams flags).Key = (copyParams flags).Key ∧
    (copyParams flags).Key = flags.key ++ "/path-to-readme-copy.md" ∧
    (deleteParams flags).Key = flags.key ++ "/path-to-readme-copy.md" ∧
    (deleteParams flags).Bucket = (copyParams flags).Bucket ∧
    ∀ (env : Env) (c : CopyObjectInput) (d : DeleteObjectInput),
      Event.request (.copy c) ∈ trace flags env →
      Event.request (.delete d) ∈ trace flags env →
      d.Key = c.Key ∧ d.Key = flags.key ++ "/path-to-readme-copy.md" ∧
        d.Bucket = c.Bucket := by
  refine ⟨rfl, rfl, rfl, rfl, ?_⟩
  intro env c d hc hd
  obtain ⟨f1, j1, -, h1⟩ := request_mem_trace flags env _ hc
  obtain ⟨f2, j2, -, h2⟩ := request_mem_trace flags env _ hd
  cases j1 <;> cases h1
  cases j2 <;> cases h2
  exact ⟨rfl, rfl, rfl⟩

theorem delete_key_eq_copy_key_witness :
    (deleteParams demoFlags).Key = "k/path-to-readme-copy.md" ∧
    (copyParams demoFlags).Key = "k/path-to-readme-copy.md" ∧
    Event.request (.copy (copyParams demoFlags)) ∈ trace demoFlags okEnv ∧
    Event.request (.delete (deleteParams demoFlags)) ∈ trace demoFlags okEnv ∧
    (deleteParams demoFlags).Key = (copyParams demoFlags).Key ∧
    (deleteParams demoFlags).Bucket = (copyParams demoFlags).Bucket :=
  have h := (delete_key_eq_copy_key demoFlags).2.2.2.2 okEnv (copyParams demoFlags)
    (deleteParams demoFlags) (by decide) (by decide)
  ⟨by decide, by decide, by decide, by decide, h.1, h.2.2⟩

/-- C8: the `CopySource` of the CopyObject request is the bucket, `/`, the
prefix, `/path-to-readme.md`: the bucket of the PutObject request, `/`, and
its key, which is also the key of the HeadObject request; the copy goes to the
same bucket.  So it is for the parameters `main` builds and for every copy
request a run issues. -/
theorem copy_source_is_uploaded_object (flags : Flags) (f : File) :
    (copyParams flags).CopySource =
      flags.BucketName ++ "/" ++ flags.key ++ "/path-to-readme.md" ∧
    (copyParams flags).CopySource =
      (params flags f).Bucket ++ "/" ++ (params flags f).Key ∧
    (headParams flags).Key = (params flags f).Key ∧
    (copyParams flags).Bucket = (params flags f).Bucket ∧
    (copyParams flags).Bucket = flags.BucketName ∧
    ∀ (env : Env) (c : CopyObjectInput), Event.request (.copy c) ∈ trace flags env →
      c.CopySource = flags.BucketName ++ "/" ++ flags.key ++ "/path-to-readme.md" ∧
        c.Bucket = flags.BucketName := by
  refine ⟨rfl, ?_, rfl, rfl, rfl, ?_⟩
  · simp [copyParams, params, String.append_assoc]
  · intro env c hc
    obtain ⟨f1, j1, -, h1⟩ := request_mem_trace flags env _ hc
    cases j1 <;> cases h1
    exact ⟨rfl, rfl⟩

theorem copy_source_is_uploaded_object_witness :
    (copyParams demoFlags).CopySource = "b/k/path-to-readme.md" ∧
    Event.request (.copy (copyParams demoFlags)) ∈ trace demoFlags okEnv ∧
    (copyParams demoFlags).CopySource =
      demoFlags.BucketName ++ "/" ++ demoFlags.key ++ "/path-to-readme.md" ∧
    (copyParams demoFlags).Bucket = demoFlags.BucketName :=
  have h := (copy_source_is_uploaded_object demoFlags readme).2.2.2.2.2 okEnv
    (copyParams demoFlags) (by decide)
  ⟨by decide, by decide, h.1, h.2⟩

/-- C9: `os.Open` is called once in every run.  When the file opens, whatever
the five calls return, `main` ends by a return or by a panic of `handleError`
(never through `os.Exit`), the handle is closed exactly once, and the close is
the last event of the run.  When the file does not open there is no handle
and nothing is closed. -/
theorem file_closed_on_every_path (flags : Flags) (env : Env) :
    (trace flags env).filter Event.isOpen = [Event.osOpen "./README.md"] ∧
    (∀ f, env.Open "./README.md" = .ok f →
      (trace flags env).filter Event.isClose = [Event.close f] ∧
      (trace flags env).getLast? = some (Event.close f) ∧
      (outcome flags env = .ret () ∨ ∃ e, outcome flags env = .panic e)) ∧
    (∀ msg, env.Open "./README.md" = .error msg →
      (trace flags env).filter Event.isClose = []) := by
  rcases hopen : env.Open "./README.md" with msg | f
  · simp [trace, run_of_open_error flags env msg hopen, List.filter, Event.isOpen,
      Event.isClose]
  · have hnone := stepsTrace_no_file_event flags env f allSteps
    have ho : (stepsTrace flags env f allSteps).filter Event.isOpen = [] :=
      List.filter_eq_nil_iff.2 (fun ev hev => by simp [(hnone ev hev).1])
    have hc : (stepsTrace flags env f allSteps).filter Event.isClose = [] :=
      List.filter_eq_nil_iff.2 (fun ev hev => by simp [(hnone ev hev).2])
    refine ⟨?_, ?_, ?_⟩
    · simp [trace, run_of_open flags env f hopen, List.filter_cons, List.filter_append, ho,
        Event.isOpen]
    · intro f1 hf1
      cases hf1
      refine ⟨?_, ?_, ?_⟩
      · simp [trace, run_of_open flags env f hopen, List.filter_cons, List.filter_append,
          hc, Event.isClose]
      · simp only [trace, run_of_open flags env f hopen]
        rw [List.getLast?_append]
        rfl
      · simp only [outcome, run_of_open flags env f hopen]
        cases firstUnclassified flags env f allSteps with
        | none => exact Or.inl rfl
        | some e => exact Or.inr ⟨e, rfl⟩
    · intro msg hmsg
      cases hmsg

theorem file_closed_on_every_path_witness :
    ((trace demoFlags brokenListEnv).filter Event.isClose = [Event.close readme] ∧
      (trace demoFlags brokenListEnv).getLast? = some (Event.close readme) ∧
      (outcome demoFlags brokenListEnv = .ret () ∨
        ∃ e, outcome demoFlags brokenListEnv = .panic e)) ∧
    ((trace demoFlags okEnv).filter Event.isClose = [Event.close readme] ∧
      (trace demoFlags okEnv).getLast? = some (Event.close readme) ∧
      (outcome demoFlags okEnv = .ret () ∨ ∃ e, outcome demoFlags okEnv = .panic e)) :=
  ⟨(file_closed_on_every_path demoFlags brokenListEnv).2.1 readme rfl,
   (file_closed_on_every_path demoFlags okEnv).2.1 readme rfl⟩

/-- C10: the key of the DeleteObject request is never the key of the PutObject
request, whatever the prefix (the empty one too), and the uploaded key starts
with the `Prefix` of the ListObjects request.  So it is for the parameters
`main` builds and for every put request and delete request a run issues. -/
theorem delete_key_ne_put_key (flags : Flags) (f : File) :
    (deleteParams flags).Key ≠ (params flags f).Key ∧
    (params flags f).Key = (listParams flags).Prefix ++ "/path-to-readme.md" ∧
    (listParams flags).Prefix.data <+: (params flags f).Key.data ∧
    ∀ (env : Env) (p : PutObjectInput) (d : DeleteObjectInput),
      Event.request (.put p) ∈ trace flags env →
      Event.request (.delete d) ∈ trace flags env → d.Key ≠ p.Key := by
  have hne : ∀ g : File, (deleteParams flags).Key ≠ (params flags g).Key := by
    intro g h
    have := string_append_left_cancel flags.key _ _ h
    revert this
    decide
  refine ⟨hne f, rfl, ?_, ?_⟩
  · show flags.key.data <+: (flags.key ++ "/path-to-readme.md").data
    rw [String.data_append]
    exact List.prefix_append _ _
  · intro env p d hp hd
    obtain ⟨f1, j1, -, h1⟩ := request_mem_trace flags env _ hp
    obtain ⟨f2, j2, -, h2⟩ := request_mem_trace flags env _ hd
    cases j1 <;> cases h1
    cases j2 <;> cases h2
    exact hne f1

theorem delete_key_ne_put_key_witness :
    (deleteParams { demoFlags with key := "" }).Key = "/path-to-readme-copy.md" ∧
    (params { demoFlags with key := "" } readme).Key = "/path-to-readme.md" ∧
    (deleteParams { demoFlags with key := "" }).Key ≠
      (params { demoFlags with key := "" } readme).Key ∧
    (deleteParams demoFlags).Key ≠ (params demoFlags readme).Key :=
  ⟨by decide, by decide, (delete_key_ne_put_key { demoFlags with key := "" } readme).1,
    (delete_key_ne_put_key demoFlags readme).2.2.2 okEnv _ _ (by decide) (by decide)⟩

end S3Misc
